import Mathlib

/-!
Verification of the inventory management system domain layer
(inventory_management_system.py): product hierarchy, inventory store,
and sales ledger.

Modelling choices:
- Python floats (prices) are modelled as rationals (ℚ), Python ints
  (quantities, warranty years) as integers (ℤ).
- `datetime.date` values are modelled by their ordinal day number (ℤ);
  `date.fromisoformat`/`isoformat` form a bijection between valid ISO
  strings and dates, so serialized dates are carried as their day value.
- The dict `Inventory._products` is modelled as an association list in
  insertion order (Python dicts preserve insertion order); adding a new
  key appends at the end, as dict assignment of a fresh key does.
- Raised exceptions are modelled with `Except`: an `.error` result means
  the Python call raised before returning, leaving the caller's state
  exactly as it was at the point of the raise (the model's error values
  carry no mutated state, mirroring that `Product.sell` raises before
  any assignment to `quantity`, and `Inventory.add_product` raises
  before inserting).
- File persistence is modelled by keeping the would-be file content
  (the parsed JSON value) in the state: `json.dump` of a list of records
  followed by `json.load` reproduces the list exactly.
- Logging and timestamps are irrelevant to the properties checked;
  timestamps are threaded as an opaque string argument.
-/

namespace IMS

/-- Exception outcomes of the Python code.  `ValueError` is split by its
message: `notFoundValue` for the "Product with ID ... not found" raise and
`negativeValue` for the negative-amount validation raises.  `noneTypeAttr`
stands for the `AttributeError` Python would raise on `None.name`. -/
inductive Err where
  | duplicateProductError
  | insufficientStockError
  | invalidProductDataError
  | notFoundValue
  | negativeValue
  | noneTypeAttr
deriving DecidableEq, Repr

/-- The product hierarchy: abstract base class `Product` with the three
concrete variants.  Field order follows each `__init__`. -/
inductive Product where
  | electronic (product_id name : String) (price : ℚ) (quantity : ℤ)
      (warranty_years : ℤ) (brand : String)
  | clothing (product_id name : String) (price : ℚ) (quantity : ℤ)
      (size material : String)
  | grocery (product_id name : String) (price : ℚ) (quantity : ℤ)
      (expiry_date : ℤ)
deriving DecidableEq, Repr

namespace Product

/-- The `product_id` property. -/
def product_id : Product → String
  | electronic i _ _ _ _ _ => i
  | clothing i _ _ _ _ _ => i
  | grocery i _ _ _ _ => i

/-- The `name` property. -/
def name : Product → String
  | electronic _ n _ _ _ _ => n
  | clothing _ n _ _ _ _ => n
  | grocery _ n _ _ _ => n

/-- The `price` property. -/
def price : Product → ℚ
  | electronic _ _ p _ _ _ => p
  | clothing _ _ p _ _ _ => p
  | grocery _ _ p _ _ => p

/-- The `quantity` property (getter). -/
def quantity : Product → ℤ
  | electronic _ _ _ q _ _ => q
  | clothing _ _ _ q _ _ => q
  | grocery _ _ _ q _ => q

/-- Raw overwrite of the `_quantity` field (no validation). -/
def withQuantity : Product → ℤ → Product
  | electronic i n p _ w b, q => electronic i n p q w b
  | clothing i n p _ s m, q => clothing i n p q s m
  | grocery i n p _ e, q => grocery i n p q e

/-- The `quantity` setter: rejects negative values with `ValueError`. -/
def setQuantity (p : Product) (v : ℤ) : Except Err Product :=
  if v < 0 then .error .negativeValue else .ok (p.withQuantity v)

/-- Model of `Product.restock`: rejects a negative amount, then goes through the
`quantity` setter with `quantity + amount`. -/
def restock (p : Product) (amount : ℤ) : Except Err Product :=
  if amount < 0 then .error .negativeValue
  else p.setQuantity (p.quantity + amount)

/-- Model of `Product.sell`: rejects a negative quantity, raises
`InsufficientStockError` when the requested quantity exceeds the stock,
otherwise goes through the `quantity` setter with `quantity - q`. -/
def sell (p : Product) (q : ℤ) : Except Err Product :=
  if q < 0 then .error .negativeValue
  else if q > p.quantity then .error .insufficientStockError
  else p.setQuantity (p.quantity - q)

/-- Model of `Product.get_total_value`: `price * quantity`. -/
def get_total_value (p : Product) : ℚ :=
  p.price * (p.quantity : ℚ)

/-- Model of `GroceryProduct.is_expired`, extended to the whole hierarchy the way
`remove_expired_products` uses it (`isinstance(p, GroceryProduct) and
p.is_expired()`): a non-grocery product is never expired. -/
def isExpiredGrocery (today : ℤ) : Product → Bool
  | grocery _ _ _ _ e => today > e
  | _ => false

end Product

/-- Model of `ElectronicProduct.__init__`: plain field assignment, no validation. -/
def ElectronicProduct.init (product_id name : String) (price : ℚ)
    (quantity : ℤ) (warranty_years : ℤ) (brand : String) : Product :=
  .electronic product_id name price quantity warranty_years brand

/-- Model of `ClothingProduct.__init__`: plain field assignment, no validation. -/
def ClothingProduct.init (product_id name : String) (price : ℚ)
    (quantity : ℤ) (size material : String) : Product :=
  .clothing product_id name price quantity size material

/-- Model of `GroceryProduct.__init__`: plain field assignment; the only check is
that the expiry string parses as an ISO date, which the date-as-ordinal
model renders always true (the argument is already a date value). -/
def GroceryProduct.init (product_id name : String) (price : ℚ)
    (quantity : ℤ) (expiry_date : ℤ) : Product :=
  .grocery product_id name price quantity expiry_date

/-- The tagged-dictionary form produced by `to_dict`: the shared keys,
the `type` discriminator, and the variant-specific keys (absent keys are
`none`). -/
structure ItemDict where
  product_id : String
  name : String
  price : ℚ
  quantity : ℤ
  type : String
  warranty_years : Option ℤ
  brand : Option String
  size : Option String
  material : Option String
  expiry_date : Option ℤ
deriving DecidableEq, Repr

/-- Model of `to_dict` on each variant: base dict (`__class__.__name__` as the
`type` tag) plus the variant-specific entries. -/
def Product.to_dict : Product → ItemDict
  | .electronic i n p q w b =>
      ⟨i, n, p, q, "ElectronicProduct", some w, some b, none, none, none⟩
  | .clothing i n p q s m =>
      ⟨i, n, p, q, "ClothingProduct", none, none, some s, some m, none⟩
  | .grocery i n p q e =>
      ⟨i, n, p, q, "GroceryProduct", none, none, none, none, some e⟩

/-- The per-item dispatch of `Inventory.load_inventory`: on the `type`
tag, rebuild the matching variant from the item's keys; a missing key
(Python `KeyError`) or an unknown tag is wrapped into
`InvalidProductDataError` by the surrounding `except` clause. -/
def loadItem (item : ItemDict) : Except Err Product :=
  if item.type = "ElectronicProduct" then
    match item.warranty_years, item.brand with
    | some w, some b =>
        .ok (ElectronicProduct.init item.product_id item.name item.price
          item.quantity w b)
    | _, _ => .error .invalidProductDataError
  else if item.type = "ClothingProduct" then
    match item.size, item.material with
    | some s, some m =>
        .ok (ClothingProduct.init item.product_id item.name item.price
          item.quantity s m)
    | _, _ => .error .invalidProductDataError
  else if item.type = "GroceryProduct" then
    match item.expiry_date with
    | some e =>
        .ok (GroceryProduct.init item.product_id item.name item.price
          item.quantity e)
    | none => .error .invalidProductDataError
  else .error .invalidProductDataError

/-- Model of `Inventory._products`: id → Product mapping in insertion order. -/
abbrev Inventory := List (String × Product)

namespace Inventory

/-- The keys of the mapping. -/
def keys (inv : Inventory) : List String :=
  List.map Prod.fst inv

/-- Model of `Inventory.get_product`: `dict.get`, the binding of the id if any. -/
def get_product : Inventory → String → Option Product
  | [], _ => none
  | kv :: rest, pid => if kv.1 = pid then some kv.2 else get_product rest pid

/-- Model of `product_id in self._products`: key membership. -/
def hasKey (inv : Inventory) (pid : String) : Bool :=
  (inv.get_product pid).isSome

/-- In-place mutation of the product object stored under `pid`: the
mapping keeps its keys and order, the binding of `pid` now holds the
mutated object. -/
def updateEntry (inv : Inventory) (pid : String) (p : Product) : Inventory :=
  List.map (fun kv => if kv.1 = pid then (kv.1, p) else kv) inv

/-- Model of `dict.pop(pid)`: drop the binding of `pid` (the first, and in a dict
only, occurrence of the key). -/
def eraseKey : Inventory → String → Inventory
  | [], _ => []
  | kv :: rest, pid => if kv.1 = pid then rest else kv :: eraseKey rest pid

/-- Model of `Inventory.add_product`: `DuplicateProductError` when the id is
already a key, else bind the product under its own id (a fresh dict key
goes to the end of the insertion order). -/
def add_product (inv : Inventory) (p : Product) : Except Err Inventory :=
  if inv.hasKey p.product_id then .error .duplicateProductError
  else .ok (inv ++ [(p.product_id, p)])

/-- Model of `Inventory.remove_product`: `ValueError` when the id is absent, else
pop the binding. -/
def remove_product (inv : Inventory) (pid : String) : Except Err Inventory :=
  if inv.hasKey pid then .ok (inv.eraseKey pid) else .error .notFoundValue

/-- Model of `Inventory.sell_product`: look the product up (`ValueError` when
absent), delegate to `Product.sell`, return `product.price * quantity`
read from the mutated object. -/
def sell_product (inv : Inventory) (pid : String) (q : ℤ) :
    Except Err (Inventory × ℚ) :=
  match inv.get_product pid with
  | none => .error .notFoundValue
  | some p =>
    match p.sell q with
    | .error e => .error e
    | .ok p' => .ok (inv.updateEntry pid p', p'.price * (q : ℚ))

/-- Model of `Inventory.restock_product`: look the product up (`ValueError` when
absent), delegate to `Product.restock`. -/
def restock_product (inv : Inventory) (pid : String) (q : ℤ) :
    Except Err Inventory :=
  match inv.get_product pid with
  | none => .error .notFoundValue
  | some p =>
    match p.restock q with
    | .error e => .error e
    | .ok p' => .ok (inv.updateEntry pid p')

/-- Model of `Inventory.total_inventory_value`: sum of `get_total_value` over the
stored products. -/
def total_inventory_value (inv : Inventory) : ℚ :=
  (List.map (fun kv : String × Product => kv.2.get_total_value) inv).sum

/-- Model of `Inventory.remove_expired_products`: collect the ids of the expired
grocery products, then remove each through `remove_product` (whose
not-found raise would propagate). -/
def remove_expired_products (today : ℤ) (inv : Inventory) :
    Except Err Inventory :=
  let expired_ids :=
    List.map (fun kv : String × Product => kv.2.product_id)
      (List.filter (fun kv : String × Product => kv.2.isExpiredGrocery today) inv)
  expired_ids.foldlM (fun acc pid => remove_product acc pid) inv

end Inventory

/-- One entry of the sales ledger, as built by `process_sale`. -/
structure SaleRecord where
  sale_id : String
  product_id : String
  product_name : String
  quantity : ℤ
  total_price : ℚ
  timestamp : String
deriving DecidableEq, Repr

/-- The state a `Sales` object closes over: the inventory it references,
the in-memory `_sales_log`, and the parsed content of `sales.json`. -/
structure SalesState where
  inventory : Inventory
  sales_log : List SaleRecord
  sales_file : List SaleRecord
deriving DecidableEq

/-- Model of `Sales.save_sales`: rewrite the whole file with the log. -/
def save_sales (st : SalesState) : SalesState :=
  ⟨st.inventory, st.sales_log, st.sales_log⟩

/-- Model of `Sales.load_sales`: replace the log with the parsed file content. -/
def load_sales (st : SalesState) : SalesState :=
  ⟨st.inventory, st.sales_file, st.sales_file⟩

/-- Model of `Sales.process_sale`: sell through the inventory, then build the
record (`sale_id` from the pre-append ledger length, the name read back
from the inventory), append it and persist the full ledger. -/
def process_sale (st : SalesState) (pid : String) (q : ℤ) (ts : String) :
    Except Err (SalesState × ℚ) :=
  match st.inventory.sell_product pid q with
  | .error e => .error e
  | .ok (inv', total_price) =>
    match inv'.get_product pid with
    | none => .error .noneTypeAttr
    | some prod =>
      let record : SaleRecord :=
        ⟨"SALE_" ++ toString (st.sales_log.length + 1), pid, prod.name, q,
          total_price, ts⟩
      let st' := save_sales ⟨inv', st.sales_log ++ [record], st.sales_file⟩
      .ok (st', total_price)

/-- The sequence of sale ids of a ledger. -/
def salesIds (log : List SaleRecord) : List String :=
  List.map (fun r => r.sale_id) log

/-- The expected id sequence of an n-entry ledger grown from empty:
SALE_1, ..., SALE_n. -/
def seqIds (n : ℕ) : List String :=
  List.map (fun i => "SALE_" ++ toString (i + 1)) (List.range n)

/-! Concrete sample data (mirroring the values used by the repository's
tests) for evaluating the operations at explicit inputs. -/

/-- The clothing product of `test_total_inventory_value`. -/
def exClothing : Product := ClothingProduct.init "c1" "T-shirt" 19.99 3 "M" "Cotton"

/-- The electronic product of `test_total_inventory_value`. -/
def exElectronic : Product := ElectronicProduct.init "c2" "Earphones" 49.99 2 1 "Sony"

/-- A grocery product with expiry day 10. -/
def exGrocery : Product := GroceryProduct.init "g1" "Milk" 2.99 10 10

/-- A two-product store. -/
def exInv : Inventory := [("c1", exClothing), ("c2", exElectronic)]

/-- A one-product store with an empty, already-persisted ledger. -/
def exSt0 : SalesState := ⟨[("c1", exClothing)], [], []⟩

/-- The record `process_sale exSt0 "c1" 2 "t0"` appends. -/
def exRec : SaleRecord := ⟨"SALE_1", "c1", "T-shirt", 2, 19.99 * 2, "t0"⟩

/-- The state after `process_sale exSt0 "c1" 2 "t0"`. -/
def exSt1 : SalesState :=
  ⟨[("c1", Product.clothing "c1" "T-shirt" 19.99 1 "M" "Cotton")], [exRec], [exRec]⟩

/-! Helper lemmas about the product operations. -/

@[simp]
theorem Product.quantity_withQuantity (p : Product) (v : ℤ) :
    (p.withQuantity v).quantity = v := by
  cases p <;> rfl

@[simp]
theorem Product.price_withQuantity (p : Product) (v : ℤ) :
    (p.withQuantity v).price = p.price := by
  cases p <;> rfl

@[simp]
theorem Product.name_withQuantity (p : Product) (v : ℤ) :
    (p.withQuantity v).name = p.name := by
  cases p <;> rfl

@[simp]
theorem Product.product_id_withQuantity (p : Product) (v : ℤ) :
    (p.withQuantity v).product_id = p.product_id := by
  cases p <;> rfl

theorem Product.withQuantity_self (p : Product) :
    p.withQuantity p.quantity = p := by
  cases p <;> rfl

/-- A sale within the available stock takes the success path of
`Product.sell` (all three guards, the setter's included, pass). -/
theorem Product.sell_ok_of_le (p : Product) (q : ℤ) (h0 : 0 ≤ q)
    (hle : q ≤ p.quantity) :
    p.sell q = .ok (p.withQuantity (p.quantity - q)) := by
  unfold Product.sell Product.setQuantity
  rw [if_neg (by omega), if_neg (by omega), if_neg (by omega)]

/-- A sale beyond the available (non-negative) stock raises
`InsufficientStockError`. -/
theorem Product.sell_insufficient (p : Product) (q : ℤ) (h0 : 0 ≤ p.quantity)
    (hgt : p.quantity < q) :
    p.sell q = .error .insufficientStockError := by
  unfold Product.sell
  rw [if_neg (by omega), if_pos (by omega)]

/-! Helper lemmas about the store. -/

/-- Lookup returns the absence marker exactly on ids that are not keys. -/
theorem Inventory.get_product_eq_none_iff (inv : Inventory) (pid : String) :
    inv.get_product pid = none ↔ pid ∉ inv.keys := by
  induction inv with
  | nil => simp [Inventory.get_product, Inventory.keys]
  | cons kv rest ih =>
    simp only [Inventory.keys, List.map_cons, List.mem_cons] at ih ⊢
    by_cases hk : kv.1 = pid
    · simp [Inventory.get_product, hk]
    · simp only [Inventory.get_product, if_neg hk, ih, not_or]
      have hne : ¬ pid = kv.1 := fun h => hk h.symm
      tauto

/-- After overwriting the binding of a present key, `get` returns the new
object. -/
theorem Inventory.get_product_updateEntry (inv : Inventory) (pid : String)
    (p' : Product) (h : (inv.get_product pid).isSome) :
    (inv.updateEntry pid p').get_product pid = some p' := by
  induction inv with
  | nil => simp [Inventory.get_product] at h
  | cons kv rest ih =>
    by_cases hk : kv.1 = pid
    · simp [Inventory.updateEntry, Inventory.get_product, hk]
    · simp only [Inventory.updateEntry, List.map_cons, if_neg hk] at ih ⊢
      simp only [Inventory.get_product, if_neg hk] at h ⊢
      exact ih h

/-- Lookup over an extended store: when the id is absent from the first
part, lookup continues in the appended part. -/
theorem Inventory.get_product_append_right (inv l : Inventory) (pid : String)
    (h : inv.get_product pid = none) :
    (inv ++ l).get_product pid = l.get_product pid := by
  induction inv with
  | nil => simp
  | cons kv rest ih =>
    by_cases hk : kv.1 = pid
    · simp [Inventory.get_product, hk] at h
    · simp only [Inventory.get_product, if_neg hk] at h
      simpa [Inventory.get_product, hk] using ih h

/-- Key test `hasKey` agrees with key membership. -/
theorem Inventory.hasKey_iff_mem_keys (inv : Inventory) (pid : String) :
    inv.hasKey pid = true ↔ pid ∈ inv.keys := by
  unfold Inventory.hasKey
  rw [Option.isSome_iff_ne_none]
  constructor
  · intro h
    by_contra hmem
    exact h ((Inventory.get_product_eq_none_iff inv pid).mpr hmem)
  · intro h hnone
    exact ((Inventory.get_product_eq_none_iff inv pid).mp hnone) h

/-- An id is a key exactly when some entry carries it. -/
theorem Inventory.mem_keys_iff (inv : Inventory) (pid : String) :
    pid ∈ inv.keys ↔ ∃ kv ∈ inv, kv.1 = pid := by
  simp [Inventory.keys]

/-- With duplicate-free keys (as a dict guarantees), two entries with the
same key are the same entry. -/
theorem Inventory.entry_eq_of_nodup_keys (a b : String × Product) :
    ∀ inv : Inventory, inv.keys.Nodup → a ∈ inv → b ∈ inv → a.1 = b.1 →
      a = b := by
  intro inv
  induction inv with
  | nil => intro _ ha; cases ha
  | cons kv rest ih =>
    intro hnd ha hb hk
    simp only [Inventory.keys, List.map_cons, List.nodup_cons] at hnd
    rcases List.mem_cons.mp ha with ha1 | ha1 <;>
      rcases List.mem_cons.mp hb with hb1 | hb1
    · rw [ha1, hb1]
    · exfalso
      rw [ha1] at hk
      apply hnd.1
      rw [hk]
      exact List.mem_map.mpr ⟨b, hb1, rfl⟩
    · exfalso
      rw [hb1] at hk
      apply hnd.1
      rw [← hk]
      exact List.mem_map.mpr ⟨a, ha1, rfl⟩
    · exact ih hnd.2 ha1 hb1 hk

/-- With duplicate-free keys, popping a key is filtering it out. -/
theorem Inventory.eraseKey_eq_filter (pid : String) :
    ∀ inv : Inventory, inv.keys.Nodup →
      inv.eraseKey pid = List.filter (fun kv => decide (kv.1 ≠ pid)) inv := by
  intro inv
  induction inv with
  | nil => intro _; rfl
  | cons kv rest ih =>
    intro hnd
    simp only [Inventory.keys, List.map_cons, List.nodup_cons] at hnd
    by_cases hk : kv.1 = pid
    · rw [Inventory.eraseKey, if_pos hk, List.filter_cons_of_neg (by simp [hk])]
      refine (List.filter_eq_self.mpr ?_).symm
      intro a hmem
      simp only [decide_eq_true_eq]
      intro haeq
      apply hnd.1
      rw [hk, ← haeq]
      exact List.mem_map.mpr ⟨a, hmem, rfl⟩
    · rw [Inventory.eraseKey, if_neg hk, List.filter_cons_of_pos (by simp [hk]),
        ih hnd.2]

/-- The keys of a filtered store form a sublist of the original keys. -/
theorem Inventory.keys_filter_sublist (inv : Inventory)
    (f : String × Product → Bool) :
    List.Sublist (Inventory.keys (List.filter f inv)) (Inventory.keys inv) :=
  List.Sublist.map Prod.fst (List.filter_sublist inv)

/-- Removing a duplicate-free list of present keys one at a time (the way
`remove_expired_products` drives `remove_product`) succeeds and filters
all of them out. -/
theorem Inventory.foldlM_remove (ids : List String) (inv : Inventory)
    (hnd : inv.keys.Nodup) (hids : ids.Nodup)
    (hmem : ∀ i ∈ ids, i ∈ inv.keys) :
    List.foldlM (fun acc pid => Inventory.remove_product acc pid) inv ids
      = .ok (List.filter (fun kv => decide (kv.1 ∉ ids)) inv) := by
  induction ids generalizing inv with
  | nil => simp [List.foldlM]; rfl
  | cons pid rest ih =>
    have hkey : inv.hasKey pid = true :=
      (Inventory.hasKey_iff_mem_keys inv pid).mpr (hmem pid (by simp))
    rw [List.foldlM_cons, Inventory.remove_product, if_pos hkey,
      Inventory.eraseKey_eq_filter pid inv hnd]
    have hnd1 :
        (Inventory.keys (List.filter (fun kv => decide (kv.1 ≠ pid)) inv)).Nodup :=
      List.Nodup.sublist (Inventory.keys_filter_sublist inv _) hnd
    have hids1 : rest.Nodup := (List.nodup_cons.mp hids).2
    have hpid_rest : pid ∉ rest := (List.nodup_cons.mp hids).1
    have hmem1 : ∀ i ∈ rest,
        i ∈ Inventory.keys (List.filter (fun kv => decide (kv.1 ≠ pid)) inv) := by
      intro i hi
      obtain ⟨kv, hkv, hkvi⟩ :=
        (Inventory.mem_keys_iff inv i).mp (hmem i (List.mem_cons_of_mem pid hi))
      refine (Inventory.mem_keys_iff _ i).mpr
        ⟨kv, List.mem_filter.mpr ⟨hkv, ?_⟩, hkvi⟩
      simp only [decide_eq_true_eq]
      intro hkvpid
      rw [hkvpid] at hkvi
      rw [← hkvi] at hi
      exact hpid_rest hi
    have hbind : (Except.ok (List.filter (fun kv => decide (kv.1 ≠ pid)) inv)
        : Except Err Inventory) >>= (fun b => List.foldlM
          (fun acc pid => Inventory.remove_product acc pid) b rest)
      = List.foldlM (fun acc pid => Inventory.remove_product acc pid)
          (List.filter (fun kv => decide (kv.1 ≠ pid)) inv) rest := rfl
    rw [hbind, ih _ hnd1 hids1 hmem1, List.filter_filter]
    congr 1
    apply List.filter_congr
    intro kv _
    simp [List.mem_cons, not_or, Ne, eq_comm, Bool.and_comm]

/-! The claims. -/

/-- C1: for a product stored under `pid` with price `p.price` and current
quantity `p.quantity`, and any `q` with `0 ≤ q ≤ p.quantity`,
`Inventory.sell_product` succeeds, the store afterwards binds `pid` to
the product with its quantity decreased to `p.quantity - q` (name, price
and id untouched), and the returned total is `price * q`. -/
theorem C1_sell_product_in_stock (inv : Inventory) (pid : String)
    (p : Product) (q : ℤ) (hget : inv.get_product pid = some p)
    (h0 : 0 ≤ q) (hle : q ≤ p.quantity) :
    inv.sell_product pid q =
      .ok (inv.updateEntry pid (p.withQuantity (p.quantity - q)),
           p.price * (q : ℚ))
    ∧ (inv.updateEntry pid (p.withQuantity (p.quantity - q))).get_product pid
        = some (p.withQuantity (p.quantity - q))
    ∧ (p.withQuantity (p.quantity - q)).quantity = p.quantity - q
    ∧ (p.withQuantity (p.quantity - q)).price = p.price := by
  refine ⟨?_, ?_, by simp, by simp⟩
  · simp [Inventory.sell_product, hget, Product.sell_ok_of_le p q h0 hle]
  · exact Inventory.get_product_updateEntry inv pid _ (by simp [hget])

/-- C1 witness: selling 2 of the 3 T-shirts priced 19.99. -/
theorem C1_witness :
    Inventory.sell_product [("c1", exClothing)] "c1" 2 =
      .ok (Inventory.updateEntry [("c1", exClothing)] "c1"
             (exClothing.withQuantity (exClothing.quantity - 2)),
           exClothing.price * ((2 : ℤ) : ℚ))
    ∧ (Inventory.updateEntry [("c1", exClothing)] "c1"
         (exClothing.withQuantity (exClothing.quantity - 2))).get_product "c1"
        = some (exClothing.withQuantity (exClothing.quantity - 2))
    ∧ (exClothing.withQuantity (exClothing.quantity - 2)).quantity
        = exClothing.quantity - 2
    ∧ (exClothing.withQuantity (exClothing.quantity - 2)).price
        = exClothing.price :=
  C1_sell_product_in_stock [("c1", exClothing)] "c1" exClothing 2 rfl
    (by decide) (by decide)

/-- C2: selling strictly more than the available stock of a stored
product (stock non-negative, as the data-model invariant requires) fails
with `InsufficientStockError`, at the store level and at the product
level.  In the model an `.error` result carries no state: the raise in
`Product.sell` happens before any assignment to `quantity` and before
`save_inventory`, so product and store are exactly as before the call. -/
theorem C2_sell_insufficient_stock (inv : Inventory) (pid : String)
    (p : Product) (q : ℤ) (hget : inv.get_product pid = some p)
    (hq0 : 0 ≤ p.quantity) (hgt : p.quantity < q) :
    inv.sell_product pid q = .error .insufficientStockError
    ∧ p.sell q = .error .insufficientStockError := by
  have hs := Product.sell_insufficient p q hq0 hgt
  exact ⟨by simp [Inventory.sell_product, hget, hs], hs⟩

/-- C2 witness: selling 5 of the 3 T-shirts. -/
theorem C2_witness :
    Inventory.sell_product [("c1", exClothing)] "c1" 5
      = .error .insufficientStockError
    ∧ exClothing.sell 5 = .error .insufficientStockError :=
  C2_sell_insufficient_stock [("c1", exClothing)] "c1" exClothing 5 rfl
    (by decide) (by decide)

/-- C10: selling a quantity of exactly 0 of a stored product (stock
non-negative) succeeds, returns a total price of 0, and leaves the
product bound to `pid` unchanged; only negative quantities are rejected
by the validation raise (`ValueError`). -/
theorem C10_sell_zero (inv : Inventory) (pid : String) (p : Product)
    (hget : inv.get_product pid = some p) (hq0 : 0 ≤ p.quantity) :
    inv.sell_product pid 0 = .ok (inv.updateEntry pid p, 0)
    ∧ (inv.updateEntry pid p).get_product pid = some p
    ∧ (∀ q : ℤ, q < 0 → inv.sell_product pid q = .error .negativeValue) := by
  refine ⟨?_, ?_, ?_⟩
  · have hs := Product.sell_ok_of_le p 0 le_rfl hq0
    rw [sub_zero, Product.withQuantity_self] at hs
    simp [Inventory.sell_product, hget, hs]
  · exact Inventory.get_product_updateEntry inv pid p (by simp [hget])
  · intro q hq
    simp [Inventory.sell_product, hget, Product.sell, if_pos hq]

/-- C10 witness: selling 0 T-shirts, and rejecting a sale of -1. -/
theorem C10_witness :
    Inventory.sell_product [("c1", exClothing)] "c1" 0
      = .ok (Inventory.updateEntry [("c1", exClothing)] "c1" exClothing, 0)
    ∧ (Inventory.updateEntry [("c1", exClothing)] "c1" exClothing).get_product "c1"
        = some exClothing
    ∧ Inventory.sell_product [("c1", exClothing)] "c1" (-1)
        = .error .negativeValue :=
  have h := C10_sell_zero [("c1", exClothing)] "c1" exClothing rfl (by decide)
  ⟨h.1, h.2.1, h.2.2 (-1) (by decide)⟩

/-- C3: `add_product` fails with `DuplicateProductError` exactly when the
product's id is already a key of the store, and otherwise inserts the
product under its own id (at the end of the insertion order). -/
theorem C3_add_duplicate_or_insert (inv : Inventory) (p : Product) :
    (inv.hasKey p.product_id = true →
      inv.add_product p = .error .duplicateProductError)
    ∧ (inv.hasKey p.product_id = false →
      inv.add_product p = .ok (inv ++ [(p.product_id, p)])) := by
  unfold Inventory.add_product
  constructor <;> intro h <;> simp [h]

/-- C3 witness: re-adding the stored T-shirt is a duplicate; adding it to
the empty store inserts it. -/
theorem C3_witness :
    Inventory.add_product [("c1", exClothing)] exClothing
      = .error .duplicateProductError
    ∧ Inventory.add_product [] exClothing
      = .ok ([] ++ [(exClothing.product_id, exClothing)]) :=
  ⟨(C3_add_duplicate_or_insert [("c1", exClothing)] exClothing).1 (by decide),
   (C3_add_duplicate_or_insert [] exClothing).2 (by decide)⟩

/-- C4: when the product's id is not yet a key, `add_product` succeeds
and a subsequent `get_product` of that id returns a product whose name,
price and quantity equal the added product's; and `get_product` of any id
that is not a key returns the absence marker `none` (it never raises:
it is total). -/
theorem C4_add_then_get (inv : Inventory) (p : Product)
    (habs : inv.get_product p.product_id = none) :
    (∃ r : Product, inv.add_product p = .ok (inv ++ [(p.product_id, p)])
      ∧ (inv ++ [(p.product_id, p)]).get_product p.product_id = some r
      ∧ r.name = p.name ∧ r.price = p.price ∧ r.quantity = p.quantity)
    ∧ (∀ pid, pid ∉ inv.keys → inv.get_product pid = none) := by
  constructor
  · refine ⟨p, ?_, ?_, rfl, rfl, rfl⟩
    · unfold Inventory.add_product
      rw [if_neg (by simp [Inventory.hasKey, habs])]
    · rw [Inventory.get_product_append_right inv _ _ habs]
      simp [Inventory.get_product]
  · intro pid hpid
    exact (Inventory.get_product_eq_none_iff inv pid).mpr hpid

/-- C4 witness: adding the earphones to the one-T-shirt store and
reading them back; looking up an absent id in that store gives `none`. -/
theorem C4_witness :
    (∃ r : Product,
      Inventory.add_product [("c1", exClothing)] exElectronic
        = .ok ([("c1", exClothing)] ++ [(exElectronic.product_id, exElectronic)])
      ∧ Inventory.get_product
          ([("c1", exClothing)] ++ [(exElectronic.product_id, exElectronic)])
          exElectronic.product_id = some r
      ∧ r.name = exElectronic.name ∧ r.price = exElectronic.price
      ∧ r.quantity = exElectronic.quantity)
    ∧ Inventory.get_product [("c1", exClothing)] "zzz" = none :=
  have h := C4_add_then_get [("c1", exClothing)] exElectronic rfl
  ⟨h.1, h.2 "zzz" (by decide)⟩

/-- C5: `total_inventory_value` is the sum over the stored products of
`price * quantity`; on the store holding the Clothing item (19.99, qty 3)
and the Electronic item (49.99, qty 2) — as built by two `add_product`
calls from the empty store — it yields 19.99*3 + 49.99*2. -/
theorem C5_total_value :
    (∀ inv : Inventory, inv.total_inventory_value
      = (List.map (fun kv : String × Product =>
          kv.2.price * (kv.2.quantity : ℚ)) inv).sum)
    ∧ (do
        let i1 ← Inventory.add_product [] exClothing
        Inventory.add_product i1 exElectronic : Except Err Inventory) = .ok exInv
    ∧ exInv.total_inventory_value = 19.99 * 3 + 49.99 * 2 := by
  refine ⟨fun inv => rfl, rfl, ?_⟩
  simp [Inventory.total_inventory_value, exInv, exClothing, exElectronic,
    ClothingProduct.init, ElectronicProduct.init, Product.get_total_value,
    Product.price, Product.quantity]

/-- C6: `remove_expired_products` removes exactly the grocery products
whose expiry date is strictly before today and keeps every other entry
(non-grocery, or grocery not expired) unchanged, in order — the result
is the store filtered on not-expired.  The two hypotheses are the dict
invariants: keys are unique and each key is its product's id. -/
theorem C6_remove_expired_exact (today : ℤ) (inv : Inventory)
    (hnd : inv.keys.Nodup)
    (hid : ∀ kv ∈ inv, kv.1 = kv.2.product_id) :
    Inventory.remove_expired_products today inv
      = .ok (List.filter (fun kv => !(kv.2.isExpiredGrocery today)) inv) := by
  simp only [Inventory.remove_expired_products]
  have hmapid :
      List.map (fun kv : String × Product => kv.2.product_id)
        (List.filter (fun kv : String × Product =>
          kv.2.isExpiredGrocery today) inv)
      = Inventory.keys (List.filter (fun kv : String × Product =>
          kv.2.isExpiredGrocery today) inv) := by
    apply List.map_congr_left
    intro kv hkv
    exact (hid kv (List.mem_filter.mp hkv).1).symm
  rw [hmapid]
  have hndex : (Inventory.keys (List.filter (fun kv : String × Product =>
      kv.2.isExpiredGrocery today) inv)).Nodup :=
    List.Nodup.sublist (Inventory.keys_filter_sublist inv _) hnd
  have hmemex : ∀ i ∈ Inventory.keys (List.filter
      (fun kv : String × Product => kv.2.isExpiredGrocery today) inv),
      i ∈ inv.keys :=
    fun i hi => List.Sublist.subset (Inventory.keys_filter_sublist inv _) hi
  rw [Inventory.foldlM_remove _ inv hnd hndex hmemex]
  congr 1
  apply List.filter_congr
  intro kv hkv
  have hiff : kv.1 ∈ Inventory.keys (List.filter
      (fun kv : String × Product => kv.2.isExpiredGrocery today) inv)
      ↔ kv.2.isExpiredGrocery today = true := by
    constructor
    · intro hmem
      obtain ⟨kv', hkv', hkey⟩ := (Inventory.mem_keys_iff _ _).mp hmem
      have hkv'f := List.mem_filter.mp hkv'
      have heq : kv' = kv :=
        Inventory.entry_eq_of_nodup_keys kv' kv inv hnd hkv'f.1 hkv hkey
      rw [← heq]
      exact hkv'f.2
    · intro hexp
      exact (Inventory.mem_keys_iff _ _).mpr
        ⟨kv, List.mem_filter.mpr ⟨hkv, hexp⟩, rfl⟩
  simp [hiff]

/-- C6 witness: with today = day 20, the store holding the expired
grocery (expiry day 10) and the T-shirt keeps exactly the non-expired
entry. -/
theorem C6_witness :
    Inventory.remove_expired_products 20 [("g1", exGrocery), ("c1", exClothing)]
      = .ok (List.filter (fun kv => !(kv.2.isExpiredGrocery 20))
          [("g1", exGrocery), ("c1", exClothing)]) :=
  C6_remove_expired_exact 20 [("g1", exGrocery), ("c1", exClothing)]
    (by decide) (by decide)

/-- C7: serializing any product of any of the three variants to its
tagged-dictionary form and deserializing it the way the load path does
(dispatching on the `type` tag) reproduces the very same product — the
same variant with every field equal. -/
theorem C7_serialize_roundtrip : ∀ p : Product, loadItem p.to_dict = .ok p := by
  intro p
  cases p <;> rfl

/-- C9 counterexample: the constructors perform no validation, so a
product with a non-positive price (and even a negative quantity) is
constructible — `Product.__init__` assigns the fields directly, without
any check on `price` and bypassing the `quantity` setter. -/
theorem C9_counterexample :
    (ElectronicProduct.init "e9" "Gadget" (-5) (-2) 1 "BrandX").price ≤ 0
    ∧ (ElectronicProduct.init "e9" "Gadget" (-5) (-2) 1 "BrandX").quantity < 0 := by
  decide

/-- C9 amended: construction validates neither price nor quantity
(negative values are accepted, see the counterexample), but every
successful `restock` or `sell` leaves the quantity non-negative — both
write the new value through the `quantity` setter, which raises on any
negative value; in particular, starting from a non-negative quantity,
the quantity stays non-negative across every sequence of successful
restock/sell operations. -/
theorem C9_amended_quantity_nonneg (p p' : Product) (a : ℤ)
    (h : p.restock a = .ok p' ∨ p.sell a = .ok p') :
    0 ≤ p'.quantity := by
  rcases h with h | h
  · unfold Product.restock Product.setQuantity at h
    split at h
    · exact absurd h (by simp)
    · split at h
      · exact absurd h (by simp)
      · simp only [Except.ok.injEq] at h
        subst h
        simp only [Product.quantity_withQuantity]
        omega
  · unfold Product.sell Product.setQuantity at h
    split at h
    · exact absurd h (by simp)
    · split at h
      · exact absurd h (by simp)
      · split at h
        · exact absurd h (by simp)
        · simp only [Except.ok.injEq] at h
          subst h
          simp only [Product.quantity_withQuantity]
          omega

/-- C9 witness: restocking the T-shirt by 2 succeeds and the resulting
quantity (5) is non-negative. -/
theorem C9_witness :
    0 ≤ (Product.clothing "c1" "T-shirt" 19.99 5 "M" "Cotton").quantity :=
  C9_amended_quantity_nonneg exClothing
    (Product.clothing "c1" "T-shirt" 19.99 5 "M" "Cotton") 2 (Or.inl rfl)

/-- Growing the expected id sequence by one. -/
theorem seqIds_succ (n : ℕ) :
    seqIds (n + 1) = seqIds n ++ ["SALE_" ++ toString (n + 1)] := by
  simp [seqIds, List.range_succ]

/-- C8: a successful `process_sale` appends exactly one record to the
ledger, the appended record's `sale_id` is `"SALE_"` followed by the new
ledger length (pre-append length + 1), the full ledger is persisted
(file = log) and reloading the persisted ledger reproduces the state; and
the sequential-id shape `SALE_1 .. SALE_n` (trivially true of the empty
ledger) is preserved, so n successful sales from an empty ledger yield
`SALE_1` through `SALE_n` in order. -/
theorem C8_process_sale_appends (st : SalesState) (pid : String) (q : ℤ)
    (ts : String) (st' : SalesState) (total : ℚ)
    (h : process_sale st pid q ts = .ok (st', total)) :
    (∃ r : SaleRecord,
      st'.sales_log = st.sales_log ++ [r]
      ∧ r.sale_id = "SALE_" ++ toString (st.sales_log.length + 1)
      ∧ st'.sales_file = st'.sales_log
      ∧ load_sales st' = st')
    ∧ (salesIds st.sales_log = seqIds st.sales_log.length →
        salesIds st'.sales_log = seqIds st'.sales_log.length) := by
  unfold process_sale at h
  cases hsell : st.inventory.sell_product pid q with
  | error e => rw [hsell] at h; exact absurd h (by simp)
  | ok pr =>
    obtain ⟨inv', tp⟩ := pr
    rw [hsell] at h
    dsimp only at h
    cases hget : Inventory.get_product inv' pid with
    | none => rw [hget] at h; exact absurd h (by simp)
    | some prod =>
      rw [hget] at h
      dsimp only at h
      simp only [Except.ok.injEq, Prod.mk.injEq] at h
      obtain ⟨hst, htot⟩ := h
      subst hst
      refine ⟨⟨⟨"SALE_" ++ toString (st.sales_log.length + 1), pid, prod.name,
        q, tp, ts⟩, rfl, rfl, rfl, rfl⟩, ?_⟩
      intro hseq
      simp only [save_sales, salesIds, List.map_append, List.map_cons,
        List.map_nil, List.length_append, List.length_singleton]
      rw [seqIds_succ]
      simp only [salesIds] at hseq
      rw [hseq]

/-- C8 witness: one sale from the empty ledger appends the record
`SALE_1`, persists it, and the persisted ledger reloads to the same
state. -/
theorem C8_witness :
    (∃ r : SaleRecord,
      exSt1.sales_log = exSt0.sales_log ++ [r]
      ∧ r.sale_id = "SALE_" ++ toString (exSt0.sales_log.length + 1)
      ∧ exSt1.sales_file = exSt1.sales_log
      ∧ load_sales exSt1 = exSt1)
    ∧ salesIds exSt1.sales_log = seqIds exSt1.sales_log.length :=
  have h := C8_process_sale_appends exSt0 "c1" 2 "t0" exSt1 (19.99 * 2) rfl
  ⟨h.1, h.2 rfl⟩

end IMS
